import Mathlib

/-!
Shallow embedding of the Namecheap provider of dnscontrol
(providers/namecheap/namecheapProvider.go) together with the parts of the
reconciliation engine that the provider calls.  Pure Go string helpers are
translated to executable Lean functions on `List Char`; the network layer is
made explicit by passing fetched results and per-attempt call outcomes as
arguments.  Functions whose bodies live outside this file set of sources
(pkg/diff, models.DomainConfig.Filter, models.ToNameservers, the RecordConfig
target setters) are modelled from the specification and say so in their doc
comments.
-/

/-! ### String helpers (Go strings.Contains / strings.HasSuffix) -/

/-- Boolean test that the first list is an initial segment of the second,
mirroring the prefix test underlying Go strings.Contains. -/
def listStartsWithB : List Char → List Char → Bool
  | [], _ => true
  | _ :: _, [] => false
  | a :: as, b :: bs => a == b && listStartsWithB as bs

/-- Boolean test that `pat` occurs contiguously inside the second list. -/
def listContainsB (pat : List Char) : List Char → Bool
  | [] => listStartsWithB pat []
  | b :: bs => listStartsWithB pat (b :: bs) || listContainsB pat bs

/-- Go strings.Contains: does `s` contain `pat` as a substring. -/
def strContains (s pat : String) : Bool := listContainsB pat.data s.data

/-- Go strings.HasSuffix: does `s` end with `pat`. -/
def strEndsWithB (s pat : String) : Bool :=
  listStartsWithB pat.data.reverse s.data.reverse

/-- Go byte-wise lexicographic order on strings, as used by sort.Strings
(identical to code-point order on the ASCII nameserver strings involved). -/
def strLtB : List Char → List Char → Bool
  | [], [] => false
  | [], _ :: _ => true
  | _ :: _, [] => false
  | a :: as, b :: bs => a.toNat < b.toNat || (a == b && strLtB as bs)

/-- Insertion step of the sort performed by Go sort.Strings. -/
def insertStringSorted (s : String) : List String → List String
  | [] => [s]
  | t :: ts => if strLtB t.data s.data then t :: insertStringSorted s ts else s :: t :: ts

/-- Go sort.Strings: ascending lexicographic sort of a string slice. -/
def sortStrings : List String → List String
  | [] => []
  | s :: ss => insertStringSorted s (sortStrings ss)

/-- ASCII lower-casing of one character (used only to state the case
normalization that the specification describes). -/
def lowerChar (c : Char) : Char :=
  if c.toNat ≥ 65 && c.toNat ≤ 90 then Char.ofNat (c.toNat + 32) else c

/-- ASCII lower-casing of a string. -/
def lowerStr (s : String) : String := ⟨s.data.map lowerChar⟩

/-- Go strings.SplitN(name, ".", 2) applied to a domain name: the part
before the first dot and the remainder. -/
def splitAtFirstDot : List Char → List Char × List Char
  | [] => ([], [])
  | c :: cs =>
    if c == '.' then ([], cs)
    else
      let p := splitAtFirstDot cs
      (c :: p.1, p.2)

/-- The (sld, tld) pair obtained in GetRegistrarCorrections from
strings.SplitN(dc.Name, ".", 2). -/
def splitDomainSldTld (name : String) : String × String :=
  let p := splitAtFirstDot name.data
  (⟨p.1⟩, ⟨p.2⟩)

/-! ### Retry policy (doWithRetry, namecheapProvider.go lines 98 to 119) -/

/-- Maximum number of attempts of the retry loop (the Go constant
maxRetries = 23). -/
def maxRetries : Nat := 23

/-- The distinguished rate-limit marker that the provider looks for inside a
backend error message. -/
def rateLimitMarker : String := "unexpected status code from api: 405"

/-- Does an error message carry the rate-limit marker
(Go strings.Contains(err.Error(), "unexpected status code from api: 405")). -/
def isRateLimitMsg (e : String) : Bool := strContains e rateLimitMarker

/-- Is the outcome of one backend-call attempt a rate-limited failure
(none models a nil error, some e a failing call with message e). -/
def rlOutcome : Option String → Bool
  | none => false
  | some e => isRateLimitMsg e

/-- The loop body of doWithRetry.  The Go closure is modelled by the
sequence `f` of per-attempt outcomes: attempt `i` yields `f i`, where
`none` is success and `some e` a failure with message `e`.  The function
returns the value left in the captured `err` variable when the loop exits,
which is what the caller of doWithRetry observes. -/
def doWithRetryLoop (f : Nat → Option String) (i currentRetry : Nat) : Option String :=
  match f i with
  | none => none
  | some e =>
    if isRateLimitMsg e then
      if maxRetries ≤ currentRetry + 1 then some e
      else doWithRetryLoop f (i + 1) (currentRetry + 1)
    else some e
termination_by maxRetries - currentRetry
decreasing_by simp only [maxRetries] at *; omega

/-- doWithRetry (namecheapProvider.go line 98): run attempts until success,
a non-rate-limited error, or the retry budget is exhausted; return the last
observed error (none on success). -/
def doWithRetry (f : Nat → Option String) : Option String := doWithRetryLoop f 0 0

/-! ### Record model -/

/-- The slice of models.RecordConfig that the Namecheap provider reads and
writes: type, label relative to the origin (GetLabel), target field
(GetTargetField), TTL and MX preference. -/
structure RecordConfig where
  type : String
  label : String
  target : String
  ttl : Nat
  mxPref : Nat
deriving DecidableEq

/-- One host entry of the nc.DomainDNSGetHostsResult returned by the
Namecheap API (fields Name, Type, Address, MXPref, TTL). -/
structure DomainDNSHost where
  name : String
  type : String
  address : String
  mxPref : Nat
  ttl : Nat
deriving DecidableEq

/-- One nameserver value (models.Nameserver is a record holding the name). -/
structure Nameserver where
  name : String
deriving DecidableEq

/-- The slice of models.DomainConfig used by this provider: the zone name,
the desired records and the desired nameservers (dc.Nameservers, reduced to
their Name fields as the provider reads them). -/
structure DomainConfig where
  name : String
  records : List RecordConfig
  nameservers : List String
deriving DecidableEq

/-- The deferred backend operation carried by an executable Correction. -/
inductive CorrectionAction where
  | generateZone (records : List RecordConfig) (name : String)
  | setCustomNameservers (sld tld desired : String)
deriving DecidableEq

/-- models.Correction: a description plus an optional deferred action.
Report-only corrections carry no action. -/
structure Correction where
  msg : String
  action : Option CorrectionAction
deriving DecidableEq

/-- The ChangeSet computed by the diff engine: report notices plus the
create, delete, modify classification. -/
structure ChangeSet where
  toReport : List String
  toCreate : List RecordConfig
  toDelete : List RecordConfig
  toModify : List RecordConfig
deriving DecidableEq

/-! ### Record conversion (toRecords, namecheapProvider.go lines 289 to 317) -/

/-- Modelled from the spec: models.RecordConfig.SetLabel is not among the
sources; per the spec, labels are folded back relative to the zone origin
and the apex is uniformly the sentinel label at-sign. -/
def setLabel (short origin : String) : String :=
  if short = "@" ∨ short = "" ∨ short = origin then "@"
  else if strEndsWithB short ("." ++ origin) then ⟨short.data.take (short.length - origin.length - 1)⟩
  else short

/-- Modelled from the spec: SetTargetMX, SetTarget and PopulateFromString
are not among the sources; per the spec, multi-field records pair the
preference with the target and redirect-style pseudo-records store their
destination verbatim, so the canonical target of every branch of the switch
in toRecords is the address string.  The Option result keeps the fallible
shape of the Go code. -/
def populateTarget (rtype address origin : String) : Option String :=
  some address

/-- toRecords (namecheapProvider.go line 289): convert fetched hosts to
RecordConfig values, stopping at the first conversion error. -/
def toRecords (hosts : List DomainDNSHost) (origin : String) : Option (List RecordConfig) :=
  match hosts with
  | [] => some []
  | h :: rest =>
    match populateTarget h.type h.address origin with
    | none => none
    | some t =>
      match toRecords rest origin with
      | none => none
      | some rs =>
        some ({ type := h.type, label := setLabel h.name origin,
                target := t, ttl := h.ttl, mxPref := h.mxPref } :: rs)

/-- GetZoneRecords (namecheapProvider.go line 122), modelled on the result
of a successful fetch: the argument `hosts` is the host list of the
nc.DomainDNSGetHostsResult delivered by DomainsDNSGetHosts (the network
call and its doWithRetry wrapper are modelled separately).  If the snapshot
is exactly the two-record parking placeholder, an empty zone is returned
before any conversion. -/
def GetZoneRecords (hosts : List DomainDNSHost) (domain : String) : Option (List RecordConfig) :=
  match hosts with
  | [h0, h1] =>
    if h0.type = "CNAME" ∧ strContains h0.address "parkingpage" = true ∧ h1.type = "URL"
    then some []
    else toRecords [h0, h1] domain
  | _ => toRecords hosts domain

/-! ### Diff engine (pkg/diff, modelled from the spec) -/

/-- Agreement on the comparison key and the normalized target: same label,
same type, same target. -/
def sameKeyTarget (r a : RecordConfig) : Bool :=
  r.label == a.label && r.type == a.type && r.target == a.target

/-- Full agreement: key, target and the ancillary fields (TTL, MX
preference). -/
def sameRecord (r a : RecordConfig) : Bool :=
  sameKeyTarget r a && r.ttl == a.ttl && r.mxPref == a.mxPref

/-- Does a target match the default delegation pattern of this backend
(the registrar-servers.com. suffix the provider itself tests). -/
def defaultNsTargetB (t : String) : Bool := strEndsWithB t "registrar-servers.com."

/-- Lexicographic order on (label, type, target) used for the deterministic
output ordering the spec requires of the diff engine. -/
def recLtB (r a : RecordConfig) : Bool :=
  strLtB r.label.data a.label.data ||
  (r.label == a.label && (strLtB r.type.data a.type.data ||
    (r.type == a.type && strLtB r.target.data a.target.data)))

/-- Insertion step of the deterministic ordering of diff output. -/
def insertRecSorted (r : RecordConfig) : List RecordConfig → List RecordConfig
  | [] => [r]
  | a :: as => if recLtB a r then a :: insertRecSorted r as else r :: a :: as

/-- Sort diff output lexicographically by (label, type, target). -/
def sortRecs : List RecordConfig → List RecordConfig
  | [] => []
  | r :: rs => insertRecSorted r (sortRecs rs)

/-- The report notice the spec attaches to a desired apex NS record that
the registrar controls. -/
def apexNsReportMsg (r : RecordConfig) : String :=
  "skipping apex NS " ++ r.target ++ ": registrar controls apex NS records"

/-- Modelled from the spec: diff.NewCompat(dc).IncrementalDiff is not among
the sources.  Per the spec, both sides are compared with set semantics per
(label, type) key and normalized target: a desired value with no actual
match at its key and target is a create, an actual value with no desired
match is a delete, a key-and-target match whose TTL or ancillary fields
differ is a modify, and the output is deterministically ordered by (label,
type, target).  Desired apex NS records whose value does not match the
default delegation pattern yield report notices. -/
def IncrementalDiff (desired actual : List RecordConfig) : ChangeSet :=
  { toReport :=
      (desired.filter (fun r =>
        r.type == "NS" && r.label == "@" && !defaultNsTargetB r.target)).map apexNsReportMsg
    toCreate := sortRecs (desired.filter (fun r => !actual.any (sameKeyTarget r)))
    toDelete := sortRecs (actual.filter (fun a => !desired.any (fun r => sameKeyTarget r a)))
    toModify := sortRecs (desired.filter (fun r =>
      actual.any (sameKeyTarget r) && !actual.any (sameRecord r))) }

/-- Modelled from the spec: diff.GenerateMessageCorrections is not among
the sources; per the spec, report notices are surfaced as non-executable
Corrections carrying only a description. -/
def GenerateMessageCorrections (msgs : List String) : List Correction :=
  msgs.map (fun m => { msg := m, action := none })

/-! ### GetZoneRecordsCorrections (namecheapProvider.go lines 240 to 287) -/

/-- The filter predicate passed to dc.Filter: drop every desired NS record
at the apex label (the nested suffix test only governs the console
notice). -/
def keepRecord (r : RecordConfig) : Bool := !(r.type == "NS" && r.label == "@")

/-- The console line printed by printer.Println for a skipped apex NS
record whose target lacks the registrar-servers.com. suffix (Println
separates its operands by spaces). -/
def apexSkipPrintMsg (r : RecordConfig) : String :=
  "\n " ++ r.target ++ " Namecheap does not support changing apex NS records. Skipping."

/-- All console notices produced while filtering a desired record list. -/
def apexSkipNotices (rs : List RecordConfig) : List String :=
  (rs.filter (fun r =>
    r.type == "NS" && r.label == "@" && !strEndsWithB r.target "registrar-servers.com.")).map
    apexSkipPrintMsg

/-- Rendering of one changed record inside the bundle description.
Modelled from the spec: the String method of a diff entry is not among the
sources; per the spec each changed record is rendered as one line. -/
def recString (r : RecordConfig) : String :=
  r.label ++ " " ++ r.type ++ " " ++ r.target ++ " ttl=" ++ toString r.ttl

/-- The desc slice built in GetZoneRecordsCorrections: one newline-prefixed
entry per create, then per delete, then per modify. -/
def descList (cs : ChangeSet) : List String :=
  cs.toCreate.map (fun r => "\n" ++ recString r) ++
  cs.toDelete.map (fun r => "\n" ++ recString r) ++
  cs.toModify.map (fun r => "\n" ++ recString r)

/-- Go fmt rendering of a string slice with the percent-s verb, as it
appears at the end of the GENERATE_ZONE message. -/
def goFormatStringSlice (xs : List String) : String :=
  "[" ++ String.intercalate " " xs ++ "]"

/-- The message of the single bundled correction:
GENERATE_ZONE: name (n records) followed by the formatted desc slice, where
n is the length of the (already filtered) desired record list. -/
def bundleMsg (name : String) (filteredRecs : List RecordConfig) (cs : ChangeSet) : String :=
  "GENERATE_ZONE: " ++ name ++ " (" ++ toString filteredRecs.length ++ " records)" ++
  goFormatStringSlice (descList cs)

/-- The single executable correction of a bundle-only zone update. -/
def bundleCorrection (name : String) (filteredRecs : List RecordConfig) (cs : ChangeSet) : Correction :=
  { msg := bundleMsg name filteredRecs cs
    action := some (CorrectionAction.generateZone filteredRecs name) }

/-- The ChangeSet computed inside GetZoneRecordsCorrections: the desired
records with apex NS entries filtered out, diffed against the actual
snapshot. -/
def changeSetOf (dc : DomainConfig) (actual : List RecordConfig) : ChangeSet :=
  IncrementalDiff (dc.records.filter keepRecord) actual

/-- Result of GetZoneRecordsCorrections: the domain configuration as left
behind by the call, the corrections, the actual change count, and the
console lines printed while filtering. -/
structure GZRCResult where
  dc : DomainConfig
  corrections : List Correction
  actualChangeCount : Nat
  printed : List String
deriving DecidableEq

/-- GetZoneRecordsCorrections (namecheapProvider.go line 240).  The desired
apex NS records are excluded before diffing, printing a console notice for
each one whose target lacks the registrar-servers.com. suffix; report
notices become non-executable corrections; and when the desc slice is
non-empty a single bundled executable correction is appended.
models.DomainConfig.Filter is not among the sources and is modelled from
the spec: every use of the record list after the Filter call reads the
filtered view, while the declaration handed back to the caller is
unchanged (the spec declares the Zone Declaration immutable once handed to
the engine). -/
def GetZoneRecordsCorrections (dc : DomainConfig) (actual : List RecordConfig) : GZRCResult :=
  let printed := apexSkipNotices dc.records
  let filtered := dc.records.filter keepRecord
  let cs := changeSetOf dc actual
  let reports := GenerateMessageCorrections cs.toReport
  let desc := descList cs
  let corrections :=
    if 0 < desc.length then reports ++ [bundleCorrection dc.name filtered cs]
    else reports
  { dc := dc
    corrections := corrections
    actualChangeCount := cs.toCreate.length + cs.toDelete.length + cs.toModify.length
    printed := printed }

/-! ### Registrar role (namecheapProvider.go lines 352 to 394) -/

/-- NamecheapDefaultNs (namecheapProvider.go line 20). -/
def NamecheapDefaultNs : List String :=
  ["dns1.registrar-servers.com", "dns2.registrar-servers.com"]

/-- Modelled from the spec: models.ToNameservers is not among the sources;
per the spec the registrar role works with an ordered sequence of
hostnames, so each name becomes one Nameserver value. -/
def ToNameservers (ns : List String) : List Nameserver :=
  ns.map (fun s => { name := s })

/-- GetNameservers (namecheapProvider.go line 353): always the default
Namecheap nameservers, with no backend call. -/
def GetNameservers (domainName : String) : List Nameserver :=
  ToNameservers NamecheapDefaultNs

/-- The canonical joined form compared by GetRegistrarCorrections: sort,
then join with commas. -/
def joinedSorted (ns : List String) : String :=
  String.intercalate "," (sortStrings ns)

/-- The message of the nameserver-change correction. -/
def nsChangeMsg (found desired : String) : String :=
  "Change Nameservers from \x27" ++ found ++ "\x27 to \x27" ++ desired ++ "\x27"

/-- GetRegistrarCorrections (namecheapProvider.go line 359), modelled on
the outcome of the DomainGetInfo fetch: `fetchedNs` is none when the fetch
failed (the error propagates) and some ns on success, ns being the
DNSDetails.Nameservers list.  Both sides are sorted and joined with commas;
a difference yields exactly one correction whose action submits the
desired joined list. -/
def GetRegistrarCorrections (dc : DomainConfig) (fetchedNs : Option (List String)) :
    Option (List Correction) :=
  match fetchedNs with
  | none => none
  | some infoNs =>
    let found := joinedSorted infoNs
    let desired := joinedSorted dc.nameservers
    if found ≠ desired then
      let p := splitDomainSldTld dc.name
      some [{ msg := nsChangeMsg found desired
              action := some (CorrectionAction.setCustomNameservers p.1 p.2 desired) }]
    else some []

/-! ### Helper lemmas -/

/-- Report corrections carry no executable action, so they never survive a
filter for executable corrections. -/
theorem generateMessageCorrections_no_exec (msgs : List String) :
    (GenerateMessageCorrections msgs).filter (fun c => c.action.isSome) = [] := by
  induction msgs with
  | nil => rfl
  | cons m ms ih => simpa [GenerateMessageCorrections, List.filter] using ih

/-! ### Claims -/

/-- Claim C10: GetNameservers is a constant function: for every domain name
argument it returns exactly the two fixed default nameservers, so its
result is independent of the domain and of any remote state. -/
theorem C10_get_nameservers_constant (d e : String) :
    GetNameservers d =
      [{ name := "dns1.registrar-servers.com" }, { name := "dns2.registrar-servers.com" }] ∧
    GetNameservers d = GetNameservers e :=
  ⟨rfl, rfl⟩

/-- Claim C4: GetZoneRecordsCorrections leaves the Zone Declaration
unchanged: the desired record sequence after the call equals the sequence
before the call. -/
theorem C4_zone_declaration_unchanged (dc : DomainConfig) (actual : List RecordConfig) :
    (GetZoneRecordsCorrections dc actual).dc.records = dc.records := rfl

/-- Claim C7: the retry wrapper retries only on the rate-limit marker: an
error without the marker on the first attempt is surfaced to the caller
immediately, whatever later attempts would have produced. -/
theorem C7_non_rate_limit_immediate (f : Nat → Option String) (e : String)
    (h0 : f 0 = some e) (hrl : isRateLimitMsg e = false) :
    doWithRetry f = some e := by
  unfold doWithRetry doWithRetryLoop
  rw [h0]
  simp [hrl]

/-- Outcome sequence used to exercise C7 at a concrete input. -/
def w7f : Nat → Option String := fun _ => some "boom"

/-- Claim C7 witness: a concrete non-rate-limited failure is returned
unchanged by doWithRetry. -/
theorem C7_non_rate_limit_immediate_witness : doWithRetry w7f = some "boom" :=
  C7_non_rate_limit_immediate w7f "boom" rfl (by decide)

/-- Claim C9: the placeholder heuristic in GetZoneRecords depends on the
fetched snapshot alone: every two-host result whose first host is a CNAME
containing the parkingpage marker and whose second host has type URL is
mapped to the empty record set, and diffing any desired configuration
against that empty actual set can never classify the placeholder records
as deletions. -/
theorem C9_placeholder_unconditional (origin : String) (h0 h1 : DomainDNSHost)
    (ht0 : h0.type = "CNAME") (ha : strContains h0.address "parkingpage" = true)
    (ht1 : h1.type = "URL") :
    GetZoneRecords [h0, h1] origin = some [] ∧
    ∀ dc : DomainConfig, (changeSetOf dc []).toDelete = [] := by
  constructor
  · simp [GetZoneRecords, ht0, ha, ht1]
  · intro dc; rfl

/-- Claim C9 witness: the heuristic fires on a concrete placeholder
snapshot even though the desired set is irrelevant to it. -/
theorem C9_placeholder_unconditional_witness :
    GetZoneRecords
      [{ name := "@", type := "CNAME", address := "this.is.a.parkingpage.host.", mxPref := 0, ttl := 1799 },
       { name := "www", type := "URL", address := "http://www.example.net", mxPref := 0, ttl := 1799 }]
      "example.net" = some [] ∧
    ∀ dc : DomainConfig, (changeSetOf dc []).toDelete = [] :=
  C9_placeholder_unconditional "example.net" _ _ rfl (by decide) rfl

/-- Claim C5: with an empty desired record set and a fetched snapshot that
exactly matches the two-record parking placeholder pattern, the pass sees
an empty actual zone, the ChangeSet is empty, and zero Corrections are
produced. -/
theorem C5_placeholder_zone (dc : DomainConfig) (origin : String) (h0 h1 : DomainDNSHost)
    (hdc : dc.records = []) (ht0 : h0.type = "CNAME")
    (ha : strContains h0.address "parkingpage" = true) (ht1 : h1.type = "URL") :
    GetZoneRecords [h0, h1] origin = some [] ∧
    changeSetOf dc [] = { toReport := [], toCreate := [], toDelete := [], toModify := [] } ∧
    (GetZoneRecordsCorrections dc []).corrections = [] := by
  refine ⟨?_, ?_, ?_⟩
  · simp [GetZoneRecords, ht0, ha, ht1]
  · simp [changeSetOf, hdc, IncrementalDiff, sortRecs]
  · simp [GetZoneRecordsCorrections, changeSetOf, hdc, IncrementalDiff, sortRecs, descList,
      GenerateMessageCorrections]

/-- Claim C5 witness: a concrete empty declaration against the concrete
parking placeholder snapshot yields zero corrections. -/
theorem C5_placeholder_zone_witness :
    GetZoneRecords
      [{ name := "@", type := "CNAME", address := "parkingpage.namecheap.com.", mxPref := 0, ttl := 1799 },
       { name := "www", type := "URL", address := "http://www.example.com", mxPref := 0, ttl := 1799 }]
      "example.com" = some [] ∧
    changeSetOf { name := "example.com", records := [], nameservers := [] } [] =
      { toReport := [], toCreate := [], toDelete := [], toModify := [] } ∧
    (GetZoneRecordsCorrections { name := "example.com", records := [], nameservers := [] } []).corrections = [] :=
  C5_placeholder_zone _ "example.com" _ _ rfl rfl (by decide) rfl

/-- Claim C1: bundle planning: the executable corrections returned by
GetZoneRecordsCorrections are exactly one bundled correction when the
computed ChangeSet has any create, delete or modify entry and none when it
has none; the bundled correction is built over the desc list, which
enumerates one entry for every create, delete and modify of the
ChangeSet. -/
theorem C1_bundle_planning (dc : DomainConfig) (actual : List RecordConfig) :
    ((GetZoneRecordsCorrections dc actual).corrections.filter (fun c => c.action.isSome) =
      if descList (changeSetOf dc actual) = [] then []
      else [bundleCorrection dc.name (dc.records.filter keepRecord) (changeSetOf dc actual)]) ∧
    ∀ r : RecordConfig,
      (r ∈ (changeSetOf dc actual).toCreate ∨ r ∈ (changeSetOf dc actual).toDelete ∨
        r ∈ (changeSetOf dc actual).toModify) →
      ("\n" ++ recString r) ∈ descList (changeSetOf dc actual) := by
  constructor
  · simp only [GetZoneRecordsCorrections]
    by_cases h : descList (changeSetOf dc actual) = []
    · rw [h, if_pos rfl]
      simp [generateMessageCorrections_no_exec]
    · have hlen : 0 < (descList (changeSetOf dc actual)).length := List.length_pos.mpr h
      rw [if_pos hlen, if_neg h]
      simp [List.filter_append, generateMessageCorrections_no_exec, bundleCorrection]
  · intro r hr
    simp only [descList, List.mem_append, List.mem_map]
    rcases hr with h | h | h
    · exact Or.inl (Or.inl ⟨r, h, rfl⟩)
    · exact Or.inl (Or.inr ⟨r, h, rfl⟩)
    · exact Or.inr ⟨r, h, rfl⟩

/-- Claim C1 witness: for a concrete one-record declaration against an
empty zone, the created record is enumerated in the desc list of the
bundled correction. -/
theorem C1_bundle_planning_witness :
    ("\n" ++ recString { type := "A", label := "www", target := "1.2.3.4", ttl := 300, mxPref := 0 }) ∈
      descList (changeSetOf
        { name := "example.com",
          records := [{ type := "A", label := "www", target := "1.2.3.4", ttl := 300, mxPref := 0 }],
          nameservers := [] } []) :=
  (C1_bundle_planning _ _).2 _ (Or.inl (by decide))

/-- If the next `m` attempts are rate-limited failures, the following one
succeeds, and the retry budget still covers them, the loop returns
success. -/
theorem doWithRetryLoop_success (f : Nat → Option String) :
    ∀ (m i currentRetry : Nat),
      (∀ j, j < m → rlOutcome (f (i + j)) = true) →
      f (i + m) = none →
      currentRetry + m < maxRetries →
      doWithRetryLoop f i currentRetry = none := by
  intro m
  induction m with
  | zero =>
    intro i cr hrl hnone hlt
    unfold doWithRetryLoop
    rw [show i + 0 = i from rfl] at hnone
    rw [hnone]
  | succ m ih =>
    intro i cr hrl hnone hlt
    have h0 : rlOutcome (f i) = true := by
      have := hrl 0 (Nat.succ_pos m)
      simpa using this
    unfold doWithRetryLoop
    cases hf : f i with
    | none => rfl
    | some e =>
      rw [hf] at h0
      have he : isRateLimitMsg e = true := h0
      have hnotend : ¬ maxRetries ≤ cr + 1 := by
        simp only [maxRetries] at hlt ⊢
        omega
      simp only [he, if_true, hnotend, if_false]
      apply ih (i + 1) (cr + 1)
      · intro j hj
        have hidx : i + 1 + j = i + (j + 1) := by omega
        rw [hidx]
        exact hrl (j + 1) (by omega)
      · have hidx : i + 1 + m = i + (m + 1) := by omega
        rw [hidx]
        exact hnone
      · omega

/-- If every remaining attempt up to the retry budget is a rate-limited
failure, the loop returns the outcome of the last attempt. -/
theorem doWithRetryLoop_exhaust (f : Nat → Option String) :
    ∀ (m i currentRetry : Nat),
      currentRetry + m + 1 = maxRetries →
      (∀ j, j < m + 1 → rlOutcome (f (i + j)) = true) →
      doWithRetryLoop f i currentRetry = f (i + m) := by
  intro m
  induction m with
  | zero =>
    intro i cr hcr hrl
    have h0 : rlOutcome (f i) = true := by simpa using hrl 0 (by omega)
    unfold doWithRetryLoop
    cases hf : f i with
    | none => rw [hf] at h0; simp [rlOutcome] at h0
    | some e =>
      rw [hf] at h0
      have he : isRateLimitMsg e = true := h0
      have hend : maxRetries ≤ cr + 1 := by omega
      simp only [he, if_true, hend, Nat.add_zero, hf]
  | succ m ih =>
    intro i cr hcr hrl
    have h0 : rlOutcome (f i) = true := by simpa using hrl 0 (by omega)
    unfold doWithRetryLoop
    cases hf : f i with
    | none => rw [hf] at h0; simp [rlOutcome] at h0
    | some e =>
      rw [hf] at h0
      have he : isRateLimitMsg e = true := h0
      have hnotend : ¬ maxRetries ≤ cr + 1 := by
        simp only [maxRetries] at hcr ⊢
        omega
      simp only [he, if_true, hnotend, if_false]
      have := ih (i + 1) (cr + 1) (by omega) (by
        intro j hj
        have hidx : i + 1 + j = i + (j + 1) := by omega
        rw [hidx]
        exact hrl (j + 1) (by omega))
      rw [this]
      congr 1
      omega

/-- Claim C2: retry bound of doWithRetry: a call sequence that fails with
the rate-limit signal exactly k times and then succeeds makes the wrapped
call succeed whenever k is below the maximum attempt count, and a call
sequence that fails with the rate-limit signal on every attempt up to the
maximum attempt count makes the caller observe the last rate-limit
error. -/
theorem C2_retry_bound (f g : Nat → Option String) (k : Nat)
    (hk : k < maxRetries)
    (hf : ∀ j, j < k → rlOutcome (f j) = true)
    (hfk : f k = none)
    (hg : ∀ j, j < maxRetries → rlOutcome (g j) = true) :
    doWithRetry f = none ∧ doWithRetry g = g (maxRetries - 1) := by
  constructor
  · refine doWithRetryLoop_success f k 0 0 ?_ ?_ ?_
    · intro j hj
      rw [Nat.zero_add]
      exact hf j hj
    · rw [Nat.zero_add]
      exact hfk
    · omega
  · have h22 : (22 : Nat) + 1 = maxRetries := by simp [maxRetries]
    have := doWithRetryLoop_exhaust g 22 0 0 (by simp [maxRetries]) (by
      intro j hj
      rw [Nat.zero_add]
      exact hg j (by simp only [maxRetries]; omega))
    rw [Nat.zero_add] at this
    rw [doWithRetry, this]
    rfl

/-- Outcome sequence with exactly two rate-limited failures before a
success, used to exercise C2 at a concrete input. -/
def w2f : Nat → Option String := fun i => if i < 2 then some rateLimitMarker else none

/-- Outcome sequence that is rate-limited on every attempt, used to
exercise C2 at a concrete input. -/
def w2g : Nat → Option String := fun _ => some rateLimitMarker

/-- Claim C2 witness: two rate-limited failures then a success give overall
success, and all-rate-limited attempts surface the last observed error. -/
theorem C2_retry_bound_witness :
    doWithRetry w2f = none ∧ doWithRetry w2g = w2g (maxRetries - 1) :=
  C2_retry_bound w2f w2g 2 (by decide) (by decide) (by decide) (by decide)

/-- Claim C3 (amended): a desired apex NS record is excluded from the diff
entirely; when its target does not end with the default
registrar-servers.com. suffix the provider prints exactly one console
notice for it, and when it does match it is excluded silently; in both
cases the notice is not surfaced as a Correction: the result contains no
non-executable Correction at all. -/
theorem C3_apex_ns_filtering (dc : DomainConfig) (actual : List RecordConfig) (r : RecordConfig)
    (hrec : dc.records = [r]) (hns : r.type = "NS") (hlabel : r.label = "@") :
    dc.records.filter keepRecord = [] ∧
    (GetZoneRecordsCorrections dc actual).printed =
      (if strEndsWithB r.target "registrar-servers.com." = true then [] else [apexSkipPrintMsg r]) ∧
    (GetZoneRecordsCorrections dc actual).corrections.filter (fun c => c.action.isNone) = [] ∧
    changeSetOf dc actual = IncrementalDiff [] actual := by
  have hkeep : keepRecord r = false := by simp [keepRecord, hns, hlabel]
  have hfilter : dc.records.filter keepRecord = [] := by
    rw [hrec]
    simp [hkeep]
  refine ⟨hfilter, ?_, ?_, ?_⟩
  · simp only [GetZoneRecordsCorrections, apexSkipNotices, hrec]
    by_cases hsuf : strEndsWithB r.target "registrar-servers.com." = true
    · simp [hns, hlabel, hsuf]
    · simp [hns, hlabel, hsuf]
  · simp only [GetZoneRecordsCorrections, changeSetOf, hfilter]
    by_cases h : 0 < (descList (IncrementalDiff [] actual)).length
    · rw [if_pos h]
      simp [GenerateMessageCorrections, IncrementalDiff, bundleCorrection]
    · rw [if_neg h]
      simp [GenerateMessageCorrections, IncrementalDiff]
  · rw [changeSetOf, hfilter]

/-- Concrete domain configuration with a single apex NS record whose
target does not match the default delegation pattern. -/
def dcApexC3 : DomainConfig :=
  { name := "example.com",
    records := [{ type := "NS", label := "@", target := "ns9.other.com.", ttl := 3600, mxPref := 0 }],
    nameservers := [] }

/-- Claim C3 witness: the amended statement at a concrete apex NS record
whose target does not match the default pattern. -/
theorem C3_apex_ns_filtering_witness :
    dcApexC3.records.filter keepRecord = [] ∧
    (GetZoneRecordsCorrections dcApexC3 []).printed =
      (if strEndsWithB "ns9.other.com." "registrar-servers.com." = true then []
       else [apexSkipPrintMsg { type := "NS", label := "@", target := "ns9.other.com.", ttl := 3600, mxPref := 0 }]) ∧
    (GetZoneRecordsCorrections dcApexC3 []).corrections.filter (fun c => c.action.isNone) = [] ∧
    changeSetOf dcApexC3 [] = IncrementalDiff [] [] :=
  C3_apex_ns_filtering dcApexC3 [] _ rfl rfl rfl

/-- Claim C3 counterexample: with one desired apex NS record whose target
does not match the default pattern and an empty actual set, the result of
GetZoneRecordsCorrections contains zero non-executable Corrections, not
the one report-only Correction the claim requires (the notice goes to the
console instead). -/
theorem C3_counterexample :
    ((GetZoneRecordsCorrections
        { name := "example.com",
          records := [{ type := "NS", label := "@", target := "ns9.other.com.", ttl := 3600, mxPref := 0 }],
          nameservers := [] } []).corrections.filter (fun c => c.action.isNone)).length = 0 := by
  decide

/-- Claim C6 (amended): GetRegistrarCorrections compares the two
nameserver lists order-insensitively but case-sensitively, by sorting each
and joining with commas: equal joined strings give zero Corrections, and
different joined strings give exactly one Correction that names both
strings and whose action submits the desired joined list; on the
specification example, reordering alone yields zero Corrections. -/
theorem C6_nameserver_reconciliation (dc : DomainConfig) (infoNs : List String) :
    GetRegistrarCorrections dc (some infoNs) =
      (if joinedSorted infoNs = joinedSorted dc.nameservers then some []
       else some [{ msg := nsChangeMsg (joinedSorted infoNs) (joinedSorted dc.nameservers),
                    action := some (CorrectionAction.setCustomNameservers
                      (splitDomainSldTld dc.name).1 (splitDomainSldTld dc.name).2
                      (joinedSorted dc.nameservers)) }]) ∧
    GetRegistrarCorrections
      { name := "example.com", records := [],
        nameservers := ["ns1.example.com", "ns2.example.com"] }
      (some ["ns2.example.com", "ns1.example.com"]) = some [] := by
  constructor
  · by_cases h : joinedSorted infoNs = joinedSorted dc.nameservers
    · simp [GetRegistrarCorrections, h]
    · simp [GetRegistrarCorrections, h]
  · decide

/-- Claim C6 counterexample: two nameserver lists that are equal after
case normalization still differ for the code, which emits one Correction
where the claim (case-normalized comparison) requires zero. -/
theorem C6_counterexample :
    sortStrings (["NS1.example.com"].map lowerStr) =
      sortStrings (["ns1.example.com"].map lowerStr) ∧
    Option.map List.length
      (GetRegistrarCorrections
        { name := "example.com", records := [], nameservers := ["ns1.example.com"] }
        (some ["NS1.example.com"])) = some 1 := by
  constructor
  · decide
  · decide

/-- Every record agrees with itself on key and target. -/
theorem sameKeyTarget_self (r : RecordConfig) : sameKeyTarget r r = true := by
  simp [sameKeyTarget]

/-- Every record agrees with itself on all compared fields. -/
theorem sameRecord_self (r : RecordConfig) : sameRecord r r = true := by
  simp [sameRecord, sameKeyTarget]

/-- Diffing a record list that contains no apex NS record against itself
yields the empty ChangeSet. -/
theorem IncrementalDiff_self (d : List RecordConfig)
    (hkeep : ∀ r ∈ d, keepRecord r = true) :
    IncrementalDiff d d = { toReport := [], toCreate := [], toDelete := [], toModify := [] } := by
  have hcreate : d.filter (fun r => !d.any (sameKeyTarget r)) = [] := by
    refine List.filter_eq_nil_iff.mpr ?_
    intro r hr
    have : d.any (sameKeyTarget r) = true := List.any_eq_true.mpr ⟨r, hr, sameKeyTarget_self r⟩
    simp [this]
  have hdelete : d.filter (fun a => !d.any (fun r => sameKeyTarget r a)) = [] := by
    refine List.filter_eq_nil_iff.mpr ?_
    intro a ha
    have : (d.any fun r => sameKeyTarget r a) = true :=
      List.any_eq_true.mpr ⟨a, ha, sameKeyTarget_self a⟩
    simp [this]
  have hmodify : d.filter (fun r => d.any (sameKeyTarget r) && !d.any (sameRecord r)) = [] := by
    refine List.filter_eq_nil_iff.mpr ?_
    intro r hr
    have : d.any (sameRecord r) = true := List.any_eq_true.mpr ⟨r, hr, sameRecord_self r⟩
    simp [this]
  have hreport : d.filter (fun r =>
      r.type == "NS" && r.label == "@" && !defaultNsTargetB r.target) = [] := by
    refine List.filter_eq_nil_iff.mpr ?_
    intro r hr
    have h := hkeep r hr
    simp only [keepRecord, Bool.not_eq_true'] at h
    simp [h]
  simp only [IncrementalDiff, ChangeSet.mk.injEq]
  exact ⟨by rw [hreport]; rfl, by rw [hcreate]; rfl, by rw [hdelete]; rfl, by rw [hmodify]; rfl⟩

/-- Claim C8 (amended): idempotence for every desired record set that
contains no apex NS record: diffing it against an actual set equal to the
desired set yields the empty ChangeSet, and GetZoneRecordsCorrections then
returns zero executable Corrections. -/
theorem C8_idempotence (dc : DomainConfig)
    (hkeep : ∀ r ∈ dc.records, keepRecord r = true) :
    changeSetOf dc dc.records = { toReport := [], toCreate := [], toDelete := [], toModify := [] } ∧
    (GetZoneRecordsCorrections dc dc.records).corrections.filter (fun c => c.action.isSome) = [] := by
  have hf : dc.records.filter keepRecord = dc.records := List.filter_eq_self.mpr hkeep
  have hcs : changeSetOf dc dc.records =
      { toReport := [], toCreate := [], toDelete := [], toModify := [] } := by
    rw [changeSetOf, hf]
    exact IncrementalDiff_self dc.records hkeep
  refine ⟨hcs, ?_⟩
  simp only [GetZoneRecordsCorrections, hcs]
  simp [descList, GenerateMessageCorrections]

/-- Claim C8 witness: a concrete declaration without apex NS records is a
fixed point: no executable corrections against an actual set equal to
it. -/
theorem C8_idempotence_witness :
    changeSetOf
        { name := "example.com",
          records := [{ type := "A", label := "www", target := "10.0.0.7", ttl := 600, mxPref := 0 }],
          nameservers := [] }
        [{ type := "A", label := "www", target := "10.0.0.7", ttl := 600, mxPref := 0 }] =
      { toReport := [], toCreate := [], toDelete := [], toModify := [] } ∧
    (GetZoneRecordsCorrections
        { name := "example.com",
          records := [{ type := "A", label := "www", target := "10.0.0.7", ttl := 600, mxPref := 0 }],
          nameservers := [] }
        [{ type := "A", label := "www", target := "10.0.0.7", ttl := 600, mxPref := 0 }]).corrections.filter
      (fun c => c.action.isSome) = [] :=
  C8_idempotence _ (by decide)

/-- Claim C8 counterexample: a desired set holding one apex NS record,
diffed against an actual set equal to it, is classified as a deletion
(the apex NS record is filtered from the desired side first), and
GetZoneRecordsCorrections emits one executable Correction instead of the
zero the claim requires. -/
theorem C8_counterexample :
    (changeSetOf
        { name := "example.com",
          records := [{ type := "NS", label := "@", target := "ns8.other.com.", ttl := 3600, mxPref := 0 }],
          nameservers := [] }
        [{ type := "NS", label := "@", target := "ns8.other.com.", ttl := 3600, mxPref := 0 }]).toDelete =
      [{ type := "NS", label := "@", target := "ns8.other.com.", ttl := 3600, mxPref := 0 }] ∧
    ((GetZoneRecordsCorrections
        { name := "example.com",
          records := [{ type := "NS", label := "@", target := "ns8.other.com.", ttl := 3600, mxPref := 0 }],
          nameservers := [] }
        [{ type := "NS", label := "@", target := "ns8.other.com.", ttl := 3600, mxPref := 0 }]).corrections.filter
      (fun c => c.action.isSome)).length = 1 := by
  constructor
  · decide
  · decide
